import Mathlib

/-!
Shallow embedding of the MoonDeck app-session coordinator
(`MoonDeckAppProxy` together with its helper `killRunner`, source file
src/unnamed/part_000) and proofs about its operations.

The TypeScript class owns a single-slot reactive store (a rxjs
BehaviorSubject holding `MoonDeckAppData | null`) and issues remote calls
(`setShortcutName`, `terminateApp`, the `kill_runner` plugin method, and
`commandProxy.closeSteam`).  We model the store's current value together
with an append-only event trace recording, in order, every store
notification (`subject.next`) and every remote call issued.  The outcomes
of the host calls are supplied by an environment of boolean oracles, one
per host primitive, so that every operation is a pure executable function
of the environment and the state.  Lodash `isEqual` on the stored records
is deep structural equality, modelled by decidable equality of the
corresponding Lean structures.
-/

namespace MoonDeck

/-- Per-session configuration (source interface `SessionOptions`). -/
structure SessionOptions where
  nameSetToAppId : Bool
deriving DecidableEq, Repr

/-- The session snapshot held by the store (source interface `MoonDeckAppData`). -/
structure MoonDeckAppData where
  steamAppId : Nat
  moonDeckAppId : Nat
  name : String
  redirected : Bool
  beingKilled : Bool
  beingSuspended : Bool
  sessionOptions : SessionOptions
deriving DecidableEq, Repr

/-- A remote call issued by the coordinator: the host rename primitive
`setShortcutName(appId, name)`, the cooperative `terminateApp(appId, timeoutMs)`,
the `kill_runner` plugin method (reached through `killRunner`), and the
command-proxy `closeSteam(force)`. -/
inductive HostCall where
  | setShortcutName (appId : Nat) (name : String)
  | terminateApp (appId : Nat) (timeoutMs : Nat)
  | killRunner (appId : Nat)
  | closeSteam (force : Bool)
deriving DecidableEq, Repr

/-- An observable event: a store notification (`subject.next`) carrying the
new snapshot, or a remote call being issued. -/
inductive Event where
  | emit (value : Option MoonDeckAppData)
  | call (c : HostCall)
deriving DecidableEq, Repr

/-- The coordinator's state: the store's current value plus the event trace
accumulated so far (ghost instrumentation; the trace only grows). -/
structure CoordState where
  value : Option MoonDeckAppData
  trace : List Event
deriving DecidableEq, Repr

/-- `subject.next(v)`: replace the stored value and notify observers. -/
def CoordState.next (s : CoordState) (v : Option MoonDeckAppData) : CoordState :=
  { value := v, trace := s.trace ++ [Event.emit v] }

/-- Issue a remote call (recorded in the trace; the stored value is untouched). -/
def CoordState.issue (s : CoordState) (c : HostCall) : CoordState :=
  { value := s.value, trace := s.trace ++ [Event.call c] }

/-- Outcomes of the host primitives: whether `setShortcutName(appId, name)`
succeeds, and whether `terminateApp(appId, timeoutMs)` succeeds.  The
`kill_runner` response only feeds logging in the source, so it needs no oracle. -/
structure Env where
  setShortcutNameOk : Nat → String → Bool
  terminateAppOk : Nat → Nat → Bool

/-- Source `setApp`: overwrite the slot with a fresh snapshot
(`redirected = beingKilled = beingSuspended = false`). -/
def setApp (s : CoordState) (steamAppId moonDeckAppId : Nat) (name : String)
    (sessionOptions : SessionOptions) : CoordState :=
  s.next (some { steamAppId := steamAppId, moonDeckAppId := moonDeckAppId,
                 name := name, redirected := false, beingKilled := false,
                 beingSuspended := false, sessionOptions := sessionOptions })

/-- Source `changeName(changeToAppId)`: no-op returning `false` when the slot
is empty; otherwise rename the shortcut `moonDeckAppId` to the stringified
`steamAppId` (when `changeToAppId`) or to the stored `name` (otherwise), and on
success store `nameSetToAppId := changeToAppId`, emitting only when the new
snapshot deep-differs from the current one (`isEqual` guard). -/
def changeName (env : Env) (s : CoordState) (changeToAppId : Bool) :
    Bool × CoordState :=
  match s.value with
  | none => (false, s)
  | some v =>
    let newName := if changeToAppId then toString v.steamAppId else v.name
    let result := env.setShortcutNameOk v.moonDeckAppId newName
    let s1 := s.issue (HostCall.setShortcutName v.moonDeckAppId newName)
    if result then
      let newValue : MoonDeckAppData :=
        { v with sessionOptions := { v.sessionOptions with nameSetToAppId := changeToAppId } }
      if v = newValue then (true, s1) else (true, s1.next (some newValue))
    else (false, s1)

/-- Source `canRedirect`: `false` when the slot is empty or already redirected;
otherwise latch `redirected := true` and return `true`. -/
def canRedirect (s : CoordState) : Bool × CoordState :=
  match s.value with
  | none => (false, s)
  | some v =>
    if v.redirected then (false, s)
    else (true, s.next (some { v with redirected := true }))

/-- Source `applySessionOptions`: re-assert the stored override via
`changeName` (the failure toast is logging only and is not modelled). -/
def applySessionOptions (env : Env) (s : CoordState) : CoordState :=
  match s.value with
  | none => s
  | some v => (changeName env s v.sessionOptions.nameSetToAppId).2

/-- Source `clearApp`: no-op when the slot is empty; otherwise
`changeName(false)` (best-effort) then empty the slot. -/
def clearApp (env : Env) (s : CoordState) : CoordState :=
  match s.value with
  | none => s
  | some _ => ((changeName env s false).2).next none

/-- Source `closeSteamOnHost`: no-op when the slot is empty; otherwise
delegate to `commandProxy.closeSteam(false)`. -/
def closeSteamOnHost (s : CoordState) : CoordState :=
  match s.value with
  | none => s
  | some _ => s.issue (HostCall.closeSteam false)

/-- Source `killApp`: no-op when empty; else mark `beingKilled := true`,
record the current `nameSetToAppId`, force `changeName(false)`, attempt
`terminateApp(moonDeckAppId, 5000)` falling back to `killRunner` on failure,
and finally, when the recorded flag was `true`, restore it in the stored
metadata (guarded by the same `isEqual` check; no rename call is issued). -/
def killApp (env : Env) (s : CoordState) : CoordState :=
  match s.value with
  | none => s
  | some v0 =>
    let v1 : MoonDeckAppData := { v0 with beingKilled := true }
    let s1 := s.next (some v1)
    let nameSetToAppId := v1.sessionOptions.nameSetToAppId
    let s2 := (changeName env s1 false).2
    match s2.value with
    | none => s2
    | some v2 =>
      let termOk := env.terminateAppOk v2.moonDeckAppId 5000
      let s3 := s2.issue (HostCall.terminateApp v2.moonDeckAppId 5000)
      let s4 := if termOk then s3 else s3.issue (HostCall.killRunner v2.moonDeckAppId)
      if nameSetToAppId then
        match s4.value with
        | none => s4
        | some v3 =>
          let newValue : MoonDeckAppData :=
            { v3 with sessionOptions := { v3.sessionOptions with nameSetToAppId := nameSetToAppId } }
          if v3 = newValue then s4 else s4.next (some newValue)
      else s4

/-- Source `suspendApp`: no-op when empty; else mark `beingSuspended := true`
and run the full `killApp` sequence. -/
def suspendApp (env : Env) (s : CoordState) : CoordState :=
  match s.value with
  | none => s
  | some v => killApp env (s.next (some { v with beingSuspended := true }))

/-- The store notifications contained in a trace, in order. -/
def emitsOf (t : List Event) : List (Option MoonDeckAppData) :=
  t.filterMap fun e => match e with
    | Event.emit v => some v
    | Event.call _ => none

/-- The remote calls contained in a trace, in order. -/
def callsOf (t : List Event) : List HostCall :=
  t.filterMap fun e => match e with
    | Event.call c => some c
    | Event.emit _ => none

/-- Whether a remote call is a host rename (`setShortcutName`). -/
def HostCall.isRename : HostCall → Bool
  | HostCall.setShortcutName _ _ => true
  | _ => false

/-- Whether a remote call is the kill-runner fallback. -/
def HostCall.isKillRunner : HostCall → Bool
  | HostCall.killRunner _ => true
  | _ => false

/-- Number of host rename calls in a trace. -/
def renameCalls (t : List Event) : Nat :=
  (callsOf t).countP HostCall.isRename

/-- Number of kill-runner fallback calls in a trace. -/
def killRunnerCalls (t : List Event) : Nat :=
  (callsOf t).countP HostCall.isKillRunner

/-- An environment in which every host call succeeds. -/
def envAllOk : Env :=
  { setShortcutNameOk := fun _ _ => true, terminateAppOk := fun _ _ => true }

/-- An environment in which every host call fails. -/
def envAllFail : Env :=
  { setShortcutNameOk := fun _ _ => false, terminateAppOk := fun _ _ => false }

/-- The empty coordinator state: no active session, empty trace. -/
def initState : CoordState := { value := none, trace := [] }

/-- Sample session snapshot used by witnesses: the spec scenario's
`setApp(100, 555, "Game X", ...)` data with selectable flags. -/
def gameV (rd bk bs f : Bool) : MoonDeckAppData :=
  { steamAppId := 100, moonDeckAppId := 555, name := "Game X",
    redirected := rd, beingKilled := bk, beingSuspended := bs,
    sessionOptions := { nameSetToAppId := f } }

/-- The three latch flags of `w` dominate those of `v`: whenever one of
`redirected`, `beingKilled`, `beingSuspended` is set in `v`, it is still set
in `w`.  An empty slot counts as dominating, since only clearing or replacing
the whole state may drop the flags. -/
def flagsLe (v : MoonDeckAppData) : Option MoonDeckAppData → Bool
  | none => true
  | some u =>
      (!v.redirected || u.redirected) && (!v.beingKilled || u.beingKilled)
        && (!v.beingSuspended || u.beingSuspended)

/-- Overwriting only the stored override flag yields the very same snapshot
iff the flag already had the target value (structural eta for the record). -/
theorem eq_withFlag_iff (v : MoonDeckAppData) (b : Bool) :
    (v = { v with
            sessionOptions := { v.sessionOptions with nameSetToAppId := b } })
      ↔ v.sessionOptions.nameSetToAppId = b := by
  obtain ⟨sa, ma, nm, rd, bk, bs, ⟨f⟩⟩ := v
  simp [MoonDeckAppData.mk.injEq, SessionOptions.mk.injEq]

/-- Case analysis of `changeName` on an active session: the host rename call
is always issued; on success the flag is stored, emitting only when it
actually changes; on failure nothing but the call event happens. -/
theorem changeName_cases (env : Env) (v : MoonDeckAppData) (b : Bool)
    (t : List Event) :
    changeName env ⟨some v, t⟩ b =
      (if env.setShortcutNameOk v.moonDeckAppId
          (if b then toString v.steamAppId else v.name) then
        if v.sessionOptions.nameSetToAppId = b then
          (true, ⟨some v,
            t ++ [Event.call (HostCall.setShortcutName v.moonDeckAppId
                    (if b then toString v.steamAppId else v.name))]⟩)
        else
          (true, ⟨some { v with
              sessionOptions := { v.sessionOptions with nameSetToAppId := b } },
            t ++ [Event.call (HostCall.setShortcutName v.moonDeckAppId
                    (if b then toString v.steamAppId else v.name)),
                  Event.emit (some { v with
                    sessionOptions :=
                      { v.sessionOptions with nameSetToAppId := b } })]⟩)
      else
        (false, ⟨some v,
          t ++ [Event.call (HostCall.setShortcutName v.moonDeckAppId
                  (if b then toString v.steamAppId else v.name))]⟩)) := by
  cases hr : env.setShortcutNameOk v.moonDeckAppId
      (if b then toString v.steamAppId else v.name) with
  | false => simp [changeName, hr, CoordState.issue]
  | true =>
    by_cases hf : v.sessionOptions.nameSetToAppId = b
    · have hv := (eq_withFlag_iff v b).mpr hf
      simp [changeName, hr, CoordState.issue, hf, ← hv]
    · have hv : ¬v = { v with
          sessionOptions := { v.sessionOptions with nameSetToAppId := b } } :=
        fun hh => hf ((eq_withFlag_iff v b).mp hh)
      simp [changeName, hr, CoordState.issue, CoordState.next, hf, hv]

/-- C6: on an empty slot `canRedirect` returns false and changes nothing;
on an already-redirected session it returns false and changes nothing;
otherwise it latches `redirected := true` and returns true, so a second call
on the same session returns false. -/
theorem canRedirect_spec (v : MoonDeckAppData) (t : List Event) :
    canRedirect ⟨none, t⟩ = (false, ⟨none, t⟩)
    ∧ (v.redirected = true → canRedirect ⟨some v, t⟩ = (false, ⟨some v, t⟩))
    ∧ (v.redirected = false →
        (canRedirect ⟨some v, t⟩).1 = true
        ∧ (canRedirect ⟨some v, t⟩).2.value = some { v with redirected := true }
        ∧ (canRedirect (canRedirect ⟨some v, t⟩).2).1 = false) := by
  refine ⟨rfl, ?_, ?_⟩
  · intro h
    simp [canRedirect, h]
  · intro h
    simp [canRedirect, h, CoordState.next]

/-- Witness for C6 at the scenario session: first call true, second false. -/
theorem canRedirect_spec_witness :
    (canRedirect ⟨some (gameV false false false false), []⟩).1 = true
    ∧ (canRedirect (canRedirect ⟨some (gameV false false false false), []⟩).2).1
        = false :=
  ⟨((canRedirect_spec (gameV false false false false) []).2.2 rfl).1,
   ((canRedirect_spec (gameV false false false false) []).2.2 rfl).2.2⟩

/-- C7: `changeName` on an empty slot returns false with no host call and no
state change; on an active session its boolean result equals the host call's
result; and when the host call fails the stored value is unchanged and the
only new event is the host call itself (no notification). -/
theorem changeName_result_spec (env : Env) (v : MoonDeckAppData) (b : Bool)
    (t : List Event) :
    changeName env ⟨none, t⟩ b = (false, ⟨none, t⟩)
    ∧ (changeName env ⟨some v, t⟩ b).1
        = env.setShortcutNameOk v.moonDeckAppId
            (if b then toString v.steamAppId else v.name)
    ∧ (env.setShortcutNameOk v.moonDeckAppId
          (if b then toString v.steamAppId else v.name) = false →
        changeName env ⟨some v, t⟩ b
          = (false, ⟨some v,
              t ++ [Event.call (HostCall.setShortcutName v.moonDeckAppId
                      (if b then toString v.steamAppId else v.name))]⟩)) := by
  refine ⟨rfl, ?_, ?_⟩
  · cases hr : env.setShortcutNameOk v.moonDeckAppId
        (if b then toString v.steamAppId else v.name) with
    | false => simp [changeName, hr]
    | true =>
      simp only [changeName, hr, if_true]
      split <;> rfl
  · intro hr
    simp [changeName, hr, CoordState.issue]

/-- Witness for C7 with a failing host call: false is returned, the stored
value is untouched, and only the call event is appended. -/
theorem changeName_result_spec_witness :
    changeName envAllFail ⟨some (gameV false false false false), []⟩ true
      = (false, ⟨some (gameV false false false false),
          [Event.call (HostCall.setShortcutName 555 "100")]⟩) :=
  (changeName_result_spec envAllFail (gameV false false false false) true
    []).2.2 rfl

/-- C10: on an active session whose override flag already equals the target,
`changeName` still issues the host rename call (exactly one call event,
whatever the call's outcome), while the store notification is suppressed by
the deep-equality guard: the trace delta is the call event alone. -/
theorem changeName_always_calls (env : Env) (v : MoonDeckAppData) (b : Bool)
    (h : v.sessionOptions.nameSetToAppId = b) :
    (changeName env ⟨some v, []⟩ b).2.trace
      = [Event.call (HostCall.setShortcutName v.moonDeckAppId
          (if b then toString v.steamAppId else v.name))]
    ∧ (changeName env ⟨some v, []⟩ b).1
        = env.setShortcutNameOk v.moonDeckAppId
            (if b then toString v.steamAppId else v.name)
    ∧ ∀ c : Bool, (changeName env ⟨some v, []⟩ c).2.trace.head?
        = some (Event.call (HostCall.setShortcutName v.moonDeckAppId
            (if c then toString v.steamAppId else v.name))) := by
  have hv : v = { v with
      sessionOptions := { v.sessionOptions with nameSetToAppId := b } } :=
    (eq_withFlag_iff v b).mpr h
  refine ⟨?_, ?_, ?_⟩
  · cases hr : env.setShortcutNameOk v.moonDeckAppId
        (if b then toString v.steamAppId else v.name) with
    | false => simp [changeName, hr, CoordState.issue]
    | true => simp [changeName, hr, CoordState.issue, ← hv]
  · cases hr : env.setShortcutNameOk v.moonDeckAppId
        (if b then toString v.steamAppId else v.name) with
    | false => simp [changeName, hr, CoordState.issue]
    | true => simp [changeName, hr, CoordState.issue, ← hv]
  · intro c
    rw [changeName_cases]
    split_ifs <;> simp [CoordState.next]

/-- Witness for C10: with the override already on, a repeated
`changeName(true)` still issues the rename and emits nothing. -/
theorem changeName_always_calls_witness :
    (changeName envAllOk ⟨some (gameV false false false true), []⟩ true).2.trace
      = [Event.call (HostCall.setShortcutName 555 "100")]
    ∧ (changeName envAllOk ⟨some (gameV false false false true), []⟩ true).1
        = true := by
  have h := changeName_always_calls envAllOk (gameV false false false true)
    true rfl
  exact ⟨by simpa [gameV] using h.1, by simpa [gameV, envAllOk] using h.2.1⟩

/-- C9: `clearApp` on an empty slot is a no-op with no notification; on an
active session it first issues the restore rename (the trace starts with the
`setShortcutName` call to the human-readable name, whatever its outcome, and
is exactly the `changeName(false)` trace) and then empties the slot with a
final `none` notification. -/
theorem clearApp_spec (env : Env) (v : MoonDeckAppData) (t : List Event) :
    clearApp env ⟨none, t⟩ = ⟨none, t⟩
    ∧ (clearApp env ⟨some v, []⟩).value = none
    ∧ (clearApp env ⟨some v, []⟩).trace
        = (changeName env ⟨some v, []⟩ false).2.trace ++ [Event.emit none]
    ∧ (clearApp env ⟨some v, []⟩).trace.head?
        = some (Event.call (HostCall.setShortcutName v.moonDeckAppId v.name)) := by
  refine ⟨rfl, rfl, rfl, ?_⟩
  show (((changeName env ⟨some v, []⟩ false).2).next none).trace.head? = _
  rw [changeName_cases]
  split_ifs <;> simp_all [CoordState.next]

/-- C1 counterexample: in the spec's scenario `setApp(100, 555, "Game X",
{nameSetToAppId:false})` followed by a successful `changeName(true)`, the
host rename call receives the shortcut id `555` together with the new display
name `"100"` (the stringified first `setApp` argument `steamAppId`); no
rename call receives the string `"555"`, contradicting the claim, even though
the call succeeds and `nameSetToAppId` does become `true`. -/
theorem changeName_toAppId_counterexample :
    (changeName envAllOk (setApp initState 100 555 "Game X" ⟨false⟩) true).1
      = true
    ∧ callsOf (changeName envAllOk
        (setApp initState 100 555 "Game X" ⟨false⟩) true).2.trace
      = [HostCall.setShortcutName 555 "100"]
    ∧ ((callsOf (changeName envAllOk
        (setApp initState 100 555 "Game X" ⟨false⟩) true).2.trace).contains
          (HostCall.setShortcutName 555 "555")) = false
    ∧ ((changeName envAllOk (setApp initState 100 555 "Game X" ⟨false⟩)
        true).2.value.map fun u => u.sessionOptions.nameSetToAppId)
      = some true := by
  decide

/-- C1 (amended): on an active session, a successful `changeName(true)`
issues exactly one host rename call, addressed to the stored shortcut id
`moonDeckAppId` with the stringified `steamAppId` (the first `setApp`
argument) as the new display name, and the stored
`sessionOptions.nameSetToAppId` becomes `true`. -/
theorem changeName_toAppId_spec (env : Env) (v : MoonDeckAppData)
    (h : env.setShortcutNameOk v.moonDeckAppId (toString v.steamAppId) = true) :
    (changeName env ⟨some v, []⟩ true).1 = true
    ∧ callsOf (changeName env ⟨some v, []⟩ true).2.trace
        = [HostCall.setShortcutName v.moonDeckAppId (toString v.steamAppId)]
    ∧ ((changeName env ⟨some v, []⟩ true).2.value.map
        fun u => u.sessionOptions.nameSetToAppId) = some true := by
  rw [changeName_cases]
  by_cases hf : v.sessionOptions.nameSetToAppId = true
  · simp [h, hf, callsOf]
  · simp [h, hf, callsOf]

/-- Witness for the amended C1 at the scenario input: the rename call is
`setShortcutName(555, "100")` and the flag ends `true`. -/
theorem changeName_toAppId_spec_witness :
    (changeName envAllOk ⟨some (gameV false false false false), []⟩ true).1
      = true
    ∧ callsOf (changeName envAllOk
        ⟨some (gameV false false false false), []⟩ true).2.trace
      = [HostCall.setShortcutName 555 "100"]
    ∧ ((changeName envAllOk ⟨some (gameV false false false false), []⟩
        true).2.value.map fun u => u.sessionOptions.nameSetToAppId)
      = some true := by
  have h := changeName_toAppId_spec envAllOk (gameV false false false false) rfl
  simpa [gameV, envAllOk] using h

/-- C8: two consecutive successful `changeName` calls with the same target
value emit at most one store notification in total, and the second call
emits none at all (its trace delta contains no notification). -/
theorem changeName_coalesces (env : Env) (v : MoonDeckAppData) (b : Bool)
    (h : env.setShortcutNameOk v.moonDeckAppId
        (if b then toString v.steamAppId else v.name) = true) :
    (emitsOf (changeName env (changeName env ⟨some v, []⟩ b).2 b).2.trace).length
      ≤ 1
    ∧ emitsOf ((changeName env (changeName env ⟨some v, []⟩ b).2 b).2.trace.drop
        (changeName env ⟨some v, []⟩ b).2.trace.length) = [] := by
  by_cases hf : v.sessionOptions.nameSetToAppId = b
  · rw [changeName_cases env v b []]
    simp only [h, hf, if_pos, if_true, ite_true]
    rw [changeName_cases]
    simp [h, hf, emitsOf]
  · rw [changeName_cases env v b []]
    simp only [h, hf, if_true, ite_true, ite_false, if_false]
    rw [changeName_cases]
    simp [h, hf, emitsOf]

/-- Witness for C8: repeating `changeName(true)` after a successful
`changeName(true)` on the scenario session emits exactly once in total and
never on the second call. -/
theorem changeName_coalesces_witness :
    (emitsOf (changeName envAllOk (changeName envAllOk
        ⟨some (gameV false false false false), []⟩ true).2 true).2.trace).length
      ≤ 1
    ∧ emitsOf ((changeName envAllOk (changeName envAllOk
        ⟨some (gameV false false false false), []⟩ true).2 true).2.trace.drop
        (changeName envAllOk
          ⟨some (gameV false false false false), []⟩ true).2.trace.length)
      = [] :=
  changeName_coalesces envAllOk (gameV false false false false) true rfl

/-- C2: when `sessionOptions.nameSetToAppId` is `true` beforehand, `killApp`
ends with the stored flag `true` again, and the whole sequence issues exactly
one host rename call (the forced reset to the human-readable name): the final
restoration is metadata-only. -/
theorem killApp_restores_flag (env : Env) (v : MoonDeckAppData)
    (h : v.sessionOptions.nameSetToAppId = true) :
    ((killApp env ⟨some v, []⟩).value.map
        fun u => u.sessionOptions.nameSetToAppId) = some true
    ∧ renameCalls (killApp env ⟨some v, []⟩).trace = 1 := by
  obtain ⟨sa, ma, nm, rd, bk, bs, ⟨f⟩⟩ := v
  replace h : f = true := h
  subst h
  cases hr : env.setShortcutNameOk ma nm <;>
    cases ht : env.terminateAppOk ma 5000 <;>
      simp [killApp, changeName, CoordState.next, CoordState.issue, hr, ht,
        renameCalls, callsOf, HostCall.isRename, List.countP_cons,
        List.countP_nil]

/-- Witness for C2 at the scenario session with every host call succeeding. -/
theorem killApp_restores_flag_witness :
    ((killApp envAllOk ⟨some (gameV false false false true), []⟩).value.map
        fun u => u.sessionOptions.nameSetToAppId) = some true
    ∧ renameCalls
        (killApp envAllOk ⟨some (gameV false false false true), []⟩).trace
      = 1 :=
  killApp_restores_flag envAllOk (gameV false false false true) rfl

/-- C3: `killApp` on an active session issues the kill-runner fallback
exactly once when the cooperative terminate call fails, and never when it
succeeds. -/
theorem killApp_fallback_spec (env : Env) (v : MoonDeckAppData) :
    killRunnerCalls (killApp env ⟨some v, []⟩).trace
      = if env.terminateAppOk v.moonDeckAppId 5000 = true then 0 else 1 := by
  obtain ⟨sa, ma, nm, rd, bk, bs, ⟨f⟩⟩ := v
  cases f <;>
    cases hr : env.setShortcutNameOk ma nm <;>
      cases ht : env.terminateAppOk ma 5000 <;>
        simp [killApp, changeName, CoordState.next, CoordState.issue, hr, ht,
          killRunnerCalls, callsOf, HostCall.isKillRunner, List.countP_cons,
          List.countP_nil]

/-- C4: `killApp` on an active session first emits the `beingKilled := true`
snapshot (the first event of its trace, before any remote call), every
snapshot it ever emits has `beingKilled = true`, and the final state has
`beingKilled = true` on both the terminate and the kill-runner paths. -/
theorem killApp_beingKilled_spec (env : Env) (v : MoonDeckAppData) :
    (killApp env ⟨some v, []⟩).trace.head?
      = some (Event.emit (some { v with beingKilled := true }))
    ∧ ((emitsOf (killApp env ⟨some v, []⟩).trace).all
        fun w => (w.map fun u => u.beingKilled).getD false) = true
    ∧ ((killApp env ⟨some v, []⟩).value.map fun u => u.beingKilled)
        = some true := by
  obtain ⟨sa, ma, nm, rd, bk, bs, ⟨f⟩⟩ := v
  cases f <;>
    cases hr : env.setShortcutNameOk ma nm <;>
      cases ht : env.terminateAppOk ma 5000 <;>
        simp [killApp, changeName, CoordState.next, CoordState.issue, hr, ht,
          emitsOf]

/-- C5: within one session's life the latch flags `redirected`,
`beingKilled`, `beingSuspended` are monotone: no Coordinator operation other
than clearing (`clearApp`) or replacing (`setApp`) the whole state ever
resets one of them from `true` back to `false` — and those two only do so by
emptying or overwriting the slot, never by editing the live snapshot. -/
theorem implies_not_or (x y : Bool) (h : x = true → y = true) :
    (!x || y) = true := by
  cases x
  · rfl
  · simp [h rfl]

theorem not_or_self_bool (x : Bool) : (!x || x) = true := by
  cases x <;> rfl

theorem flagsLe_of_flags (v u : MoonDeckAppData)
    (h1 : v.redirected = true → u.redirected = true)
    (h2 : v.beingKilled = true → u.beingKilled = true)
    (h3 : v.beingSuspended = true → u.beingSuspended = true) :
    flagsLe v (some u) = true := by
  show ((!v.redirected || u.redirected) && (!v.beingKilled || u.beingKilled)
        && (!v.beingSuspended || u.beingSuspended)) = true
  rw [implies_not_or _ _ h1, implies_not_or _ _ h2, implies_not_or _ _ h3]
  rfl

theorem changeName_flagsLe (env : Env) (v : MoonDeckAppData) (b : Bool)
    (t : List Event) :
    flagsLe v (changeName env ⟨some v, t⟩ b).2.value = true := by
  rw [changeName_cases]
  split_ifs <;> exact flagsLe_of_flags _ _ (fun h => h) (fun h => h) (fun h => h)

theorem canRedirect_flagsLe (v : MoonDeckAppData) (t : List Event) :
    flagsLe v (canRedirect ⟨some v, t⟩).2.value = true := by
  have hc : canRedirect ⟨some v, t⟩
      = if v.redirected then (false, ⟨some v, t⟩)
        else (true, CoordState.next ⟨some v, t⟩
                (some { v with redirected := true })) := rfl
  rw [hc]
  split_ifs
  · exact flagsLe_of_flags _ _ (fun h => h) (fun h => h) (fun h => h)
  · exact flagsLe_of_flags _ _ (fun _ => rfl) (fun h => h) (fun h => h)

theorem applySessionOptions_flagsLe (env : Env) (v : MoonDeckAppData)
    (t : List Event) :
    flagsLe v (applySessionOptions env ⟨some v, t⟩).value = true := by
  show flagsLe v
    (changeName env ⟨some v, t⟩ v.sessionOptions.nameSetToAppId).2.value = true
  exact changeName_flagsLe env v v.sessionOptions.nameSetToAppId t

theorem clearApp_flagsLe (env : Env) (v : MoonDeckAppData) (t : List Event) :
    flagsLe v (clearApp env ⟨some v, t⟩).value = true :=
  rfl

theorem closeSteamOnHost_flagsLe (v : MoonDeckAppData) (t : List Event) :
    flagsLe v (closeSteamOnHost ⟨some v, t⟩).value = true :=
  flagsLe_of_flags _ _ (fun h => h) (fun h => h) (fun h => h)

theorem killApp_flagsLe (env : Env) (v : MoonDeckAppData) (t : List Event) :
    flagsLe v (killApp env ⟨some v, t⟩).value = true := by
  obtain ⟨sa, ma, nm, rd, bk, bs, ⟨f⟩⟩ := v
  cases f <;>
    cases hr : env.setShortcutNameOk ma nm <;>
      cases ht : env.terminateAppOk ma 5000 <;>
        simp [killApp, changeName, CoordState.next, CoordState.issue, hr, ht,
          flagsLe, not_or_self_bool]

theorem suspendApp_flagsLe (env : Env) (v : MoonDeckAppData) (t : List Event) :
    flagsLe v (suspendApp env ⟨some v, t⟩).value = true := by
  obtain ⟨sa, ma, nm, rd, bk, bs, ⟨f⟩⟩ := v
  cases f <;>
    cases hr : env.setShortcutNameOk ma nm <;>
      cases ht : env.terminateAppOk ma 5000 <;>
        simp [suspendApp, killApp, changeName, CoordState.next,
          CoordState.issue, hr, ht, flagsLe, not_or_self_bool]

/-- C5: within one session's life the latch flags `redirected`,
`beingKilled`, `beingSuspended` are monotone: no Coordinator operation other
than clearing (`clearApp`) or replacing (`setApp`) the whole state ever
resets one of them from `true` back to `false` — and `clearApp` only drops
them by emptying the slot, never by editing a live snapshot. -/
theorem flags_monotone (env : Env) (v : MoonDeckAppData) (b : Bool)
    (t : List Event) :
    flagsLe v (changeName env ⟨some v, t⟩ b).2.value = true
    ∧ flagsLe v (canRedirect ⟨some v, t⟩).2.value = true
    ∧ flagsLe v (applySessionOptions env ⟨some v, t⟩).value = true
    ∧ flagsLe v (clearApp env ⟨some v, t⟩).value = true
    ∧ flagsLe v (closeSteamOnHost ⟨some v, t⟩).value = true
    ∧ flagsLe v (killApp env ⟨some v, t⟩).value = true
    ∧ flagsLe v (suspendApp env ⟨some v, t⟩).value = true :=
  ⟨changeName_flagsLe env v b t, canRedirect_flagsLe v t,
   applySessionOptions_flagsLe env v t, clearApp_flagsLe env v t,
   closeSteamOnHost_flagsLe v t, killApp_flagsLe env v t,
   suspendApp_flagsLe env v t⟩

end MoonDeck
